import Mathlib

/-!
Verification development for a 2D platformer engine (entity collision
geometry, player controller, enemy AI, collectibles, entity manager).

Positions and velocities are embedded as rationals (the source uses
floating-point numbers, used here only for exact arithmetic on small
values); pixel rectangles are embedded with integer coordinates obtained
by truncation toward zero, matching the `int()` conversion in the source.
-/

namespace Platformer

/-- Truncation toward zero, the semantics of Python `int()` on a float. -/
def pyInt (q : ℚ) : ℤ := if q < 0 then q.ceil else q.floor

/-- An axis-aligned integer rectangle, as built by `Entity.rect`. -/
structure PRect where
  x : ℤ
  y : ℤ
  w : ℤ
  h : ℤ
  deriving DecidableEq, Repr

/-- `pygame.Rect.colliderect`: strict overlap on both axes. -/
def rectsCollide (a b : PRect) : Bool :=
  decide (a.x < b.x + b.w) && decide (b.x < a.x + a.w) &&
  decide (a.y < b.y + b.h) && decide (b.y < a.y + a.h)

/-- The geometric and flag state of an entity that participates in
collision tests (`Entity.x/y/width/height/active/solid`). -/
structure Ent where
  x : ℚ
  y : ℚ
  width : ℤ
  height : ℤ
  active : Bool
  solid : Bool
  deriving DecidableEq, Repr

/-- `Entity.rect`: integer collision rectangle. -/
def Ent.rect (e : Ent) : PRect := ⟨pyInt e.x, pyInt e.y, e.width, e.height⟩

/-- `Entity.right` (floating-point right edge). -/
def Ent.entRight (e : Ent) : ℚ := e.x + (e.width : ℚ)

/-- `Entity.bottom` (floating-point bottom edge). -/
def Ent.entBottom (e : Ent) : ℚ := e.y + (e.height : ℚ)

/-- `Entity.collides_with`: both participants must be active and solid,
then the integer rectangles must strictly overlap. -/
def collidesWith (a b : Ent) : Bool :=
  a.active && b.active && a.solid && b.solid && rectsCollide a.rect b.rect

/-- The four sides `Entity.get_collision_side` can report. -/
inductive Side where
  | left
  | right
  | top
  | bottom
  deriving DecidableEq, Repr

/-- Minimum of a nonempty list, Python `min([...])` folded from the head. -/
def listMin (m0 : ℚ) (rest : List ℚ) : ℚ := rest.foldl min m0

/-- The cascade of lines 110-129 of `entity.py`: clamp the four overlap
amounts at 0, drop the non-positive ones, take the minimum of what is
left, and return the first side whose (clamped) overlap equals it, in
the order left_overlap -> right, right_overlap -> left,
top_overlap -> bottom, else top. -/
def sideCascade (lo ro to_ bo : ℚ) : Option Side :=
  match ([max 0 lo, max 0 ro, max 0 to_, max 0 bo].filter
      (fun o => decide (0 < o))) with
  | [] => none
  | m0 :: rest =>
    some (if listMin m0 rest = max 0 lo then Side.right
          else if listMin m0 rest = max 0 ro then Side.left
          else if listMin m0 rest = max 0 to_ then Side.bottom
          else Side.top)

/-- `Entity.get_collision_side` (entity.py lines 98-129). -/
def getCollisionSide (a b : Ent) : Option Side :=
  if collidesWith a b then
    sideCascade (a.entRight - b.x) (b.entRight - a.x)
      (a.entBottom - b.y) (b.entBottom - a.y)
  else none

/-- Modelled from the spec (amended reading of §4.1): enumerate the four
overlap magnitudes with their associated sides, keep the positive ones,
and return the side of the first pair (in enumeration order
right > left > bottom > top) whose magnitude is the minimum positive one. -/
def firstMinPosSide (lo ro to_ bo : ℚ) : Option Side :=
  match (([(lo, Side.right), (ro, Side.left), (to_, Side.bottom),
      (bo, Side.top)] : List (ℚ × Side)).filter (fun p => decide (0 < p.1))) with
  | [] => none
  | q0 :: rest =>
    (([(lo, Side.right), (ro, Side.left), (to_, Side.bottom),
        (bo, Side.top)] : List (ℚ × Side)).find?
      (fun p => decide (0 < p.1) &&
        decide (p.1 = listMin q0.1 (rest.map Prod.fst)))).map Prod.snd

/-- Spec-level collision side resolution: same guard as the source, with
the side picked by the minimum-positive-overlap rule. -/
def collisionSideSpec (a b : Ent) : Option Side :=
  if collidesWith a b then
    firstMinPosSide (a.entRight - b.x) (b.entRight - a.x)
      (a.entBottom - b.y) (b.entBottom - a.y)
  else none

lemma filter_pos_map_max0 (l : List ℚ) :
    ((l.map (fun v => max 0 v)).filter (fun o => decide (0 < o))) =
      l.filter (fun o => decide (0 < o)) := by
  induction l with
  | nil => rfl
  | cons x xs ih =>
    by_cases h : 0 < x
    · simp [List.filter_cons, max_eq_right h.le, h, ih]
    · have hx : max 0 x = 0 := max_eq_left (not_lt.mp h)
      simp [List.filter_cons, hx, h, ih]

lemma mem_foldl_min (l : List ℚ) (a : ℚ) : l.foldl min a ∈ a :: l := by
  induction l generalizing a with
  | nil => simp
  | cons x xs ih =>
    simp only [List.foldl_cons]
    rcases List.mem_cons.mp (ih (min a x)) with h | h
    · rw [h]
      rcases min_choice a x with hm | hm <;> rw [hm]
      · exact List.mem_cons_self _ _
      · exact List.mem_cons.mpr (Or.inr (List.mem_cons_self _ _))
    · exact List.mem_cons.mpr (Or.inr (List.mem_cons.mpr (Or.inr h)))

lemma eq_max0_iff {m : ℚ} (hm : 0 < m) (v : ℚ) : (m = max 0 v) ↔ (m = v) := by
  by_cases h : 0 < v
  · rw [max_eq_right h.le]
  · rw [max_eq_left (not_lt.mp h)]
    constructor
    · intro e; exact absurd (e ▸ hm) (lt_irrefl 0)
    · intro e; exact absurd (e ▸ hm) (not_lt.mpr (not_lt.mp h))

/-- The source's clamp/min/cascade computation selects exactly the first
enumerated side whose overlap magnitude is positive and minimal. -/
lemma sideCascade_eq_firstMinPosSide (lo ro to_ bo : ℚ) :
    sideCascade lo ro to_ bo = firstMinPosSide lo ro to_ bo := by
  unfold sideCascade firstMinPosSide
  have hfmap :
      (([(lo, Side.right), (ro, Side.left), (to_, Side.bottom),
          (bo, Side.top)].filter (fun p => decide (0 < p.1))).map Prod.fst) =
        [lo, ro, to_, bo].filter (fun o => decide (0 < o)) := by
    by_cases h1 : 0 < lo <;> by_cases h2 : 0 < ro <;> by_cases h3 : 0 < to_ <;>
      by_cases h4 : 0 < bo <;> simp [List.filter_cons, h1, h2, h3, h4]
  have hclamp :
      ([max 0 lo, max 0 ro, max 0 to_, max 0 bo].filter (fun o => decide (0 < o))) =
        [lo, ro, to_, bo].filter (fun o => decide (0 < o)) := by
    have : [max 0 lo, max 0 ro, max 0 to_, max 0 bo] =
        [lo, ro, to_, bo].map (fun v => max 0 v) := rfl
    rw [this, filter_pos_map_max0]
  rw [hclamp]
  rcases hps : ([(lo, Side.right), (ro, Side.left), (to_, Side.bottom),
      (bo, Side.top)].filter (fun p => decide (0 < p.1))) with _ | ⟨q, qs⟩
  · rw [hps]
    rw [hps] at hfmap
    simp only [List.map_nil] at hfmap
    rw [← hfmap]
  · rw [hps]
    rw [hps] at hfmap
    simp only [List.map_cons] at hfmap
    rw [← hfmap]
    dsimp only
    have hmmem : listMin q.1 (qs.map Prod.fst) ∈ q.1 :: qs.map Prod.fst :=
      mem_foldl_min _ _
    rw [hfmap] at hmmem
    generalize hmdef : listMin q.1 (List.map Prod.fst qs) = m at hmmem ⊢
    have hmem4 : m ∈ [lo, ro, to_, bo] := List.mem_of_mem_filter hmmem
    have hmpos : 0 < m := by
      have := (List.mem_filter.mp hmmem).2
      exact of_decide_eq_true this
    simp only [eq_max0_iff hmpos]
    by_cases e1 : m = lo
    · have hlo : (0 < lo) := e1 ▸ hmpos
      simp [List.find?, e1, hlo]
    · by_cases e2 : m = ro
      · have hro : (0 < ro) := e2 ▸ hmpos
        have hba : ro ≠ lo := fun h => e1 (e2.trans h)
        have hab : lo ≠ ro := fun h => hba h.symm
        simp [List.find?, e2, hro, hba, hab]
      · by_cases e3 : m = to_
        · have hto : (0 < to_) := e3 ▸ hmpos
          have hta : to_ ≠ lo := fun h => e1 (e3.trans h)
          have hat : lo ≠ to_ := fun h => hta h.symm
          have htb : to_ ≠ ro := fun h => e2 (e3.trans h)
          have hbt : ro ≠ to_ := fun h => htb h.symm
          simp [List.find?, e3, hto, hta, hat, htb, hbt]
        · have e4 : m = bo := by
            rcases List.mem_cons.mp hmem4 with hx | hmem4b
            · exact absurd hx e1
            rcases List.mem_cons.mp hmem4b with hx | hmem4c
            · exact absurd hx e2
            rcases List.mem_cons.mp hmem4c with hx | hmem4d
            · exact absurd hx e3
            simpa using hmem4d
          have hbo : (0 < bo) := e4 ▸ hmpos
          have h1 : bo ≠ lo := fun h => e1 (e4.trans h)
          have h2 : lo ≠ bo := fun h => h1 h.symm
          have h3 : bo ≠ ro := fun h => e2 (e4.trans h)
          have h4 : ro ≠ bo := fun h => h3 h.symm
          have h5 : bo ≠ to_ := fun h => e3 (e4.trans h)
          have h6 : to_ ≠ bo := fun h => h5 h.symm
          simp [List.find?, e4, hbo, h1, h2, h3, h4, h5, h6]

/-- C1 (corrected, amended claim): for every pair of entities,
`get_collision_side` returns the side associated with the minimum positive
of the four overlap magnitudes (a.right − b.left) → right,
(b.right − a.left) → left, (a.bottom − b.top) → bottom,
(b.bottom − a.top) → top, tie-broken in the enumeration order
right > left > bottom > top (so all-equal margins resolve to "right"). -/
theorem getCollisionSide_eq_collisionSideSpec (a b : Ent) :
    getCollisionSide a b = collisionSideSpec a b := by
  unfold getCollisionSide collisionSideSpec
  by_cases h : collidesWith a b <;> simp [h, sideCascade_eq_firstMinPosSide]

/-- C1 counterexample: two coincident active solid 10×10 squares collide
with all four overlap margins equal (each 10), yet `get_collision_side`
returns "right", not "left" as the claim states. -/
theorem getCollisionSide_equal_margins_is_right :
    (Ent.entRight ⟨0, 0, 10, 10, true, true⟩ - (0 : ℚ) = 10)
    ∧ (Ent.entBottom ⟨0, 0, 10, 10, true, true⟩ - (0 : ℚ) = 10)
    ∧ collidesWith ⟨0, 0, 10, 10, true, true⟩ ⟨0, 0, 10, 10, true, true⟩ = true
    ∧ getCollisionSide ⟨0, 0, 10, 10, true, true⟩ ⟨0, 0, 10, 10, true, true⟩ =
        some Side.right
    ∧ getCollisionSide ⟨0, 0, 10, 10, true, true⟩ ⟨0, 0, 10, 10, true, true⟩ ≠
        some Side.left := by
  with_unfolding_all decide

/-! ### Player controller (player.py) -/

/-- Player state: position/box/velocity plus the damage/power/score
state machine of `Player` (player.py). Fields not touched by the
operations below (input, animation, timers other than invulnerability)
are omitted. -/
structure PState where
  x : ℚ
  y : ℚ
  width : ℤ
  height : ℤ
  velocity_y : ℚ
  power_level : ℤ
  lives : ℤ
  score : ℤ
  coins : ℤ
  invulnerable : Bool
  invulnerable_timer : ℚ
  active : Bool
  solid : Bool
  deriving DecidableEq, Repr

/-- `Player.__init__` state relevant here: 32×32 box, power 0, 3 lives,
0 score/coins, vulnerable, active and solid. -/
def playerInit (x y : ℚ) : PState :=
  ⟨x, y, 32, 32, 0, 0, 3, 0, 0, false, 0, true, true⟩

/-- The player's `bottom` edge. -/
def PState.pBottom (p : PState) : ℚ := p.y + (p.height : ℚ)

/-- `Player.take_damage` (player.py lines 217-235). -/
def takeDamage (p : PState) : PState :=
  if p.invulnerable then p
  else if 0 < p.power_level then
    { p with power_level := p.power_level - 1,
             invulnerable := true, invulnerable_timer := 2 }
  else
    if p.lives - 1 ≤ 0 then
      { p with lives := p.lives - 1, active := false }
    else
      { p with lives := p.lives - 1,
               invulnerable := true, invulnerable_timer := 3 }

/-- `Player.collect_coin` (player.py lines 237-243). -/
def collectCoin (p : PState) : PState :=
  if p.coins + 1 ≥ 100 then
    { p with coins := 0, score := p.score + 100, lives := p.lives + 1 }
  else
    { p with coins := p.coins + 1, score := p.score + 100 }

/-- `Player.power_up` (player.py lines 245-249). -/
def powerUp (p : PState) : PState :=
  if p.power_level < 2 then
    { p with power_level := p.power_level + 1, score := p.score + 1000 }
  else p

/-- `Mushroom.apply_to` (powerups.py lines 87-93). -/
def mushroomApplyTo (p : PState) : PState :=
  if p.power_level < 1 then
    { p with power_level := 1, score := p.score + 1000 }
  else p

/-- C3 (confirmed): applying a power-up never decreases `power_level`.
`Player.power_up` below the cap (2) increments `power_level` and adds the
fixed 1000-point bonus, and at the cap leaves power and score unchanged;
`Mushroom.apply_to` below its granted level (1) raises `power_level` to 1
(an increment by one from the reachable level 0) with the same 1000-point
bonus, and at or above the granted level leaves power and score unchanged. -/
theorem powerUp_monotone_and_bonus (p : PState) :
    (p.power_level ≤ (powerUp p).power_level)
    ∧ ((powerUp p).power_level =
        if p.power_level < 2 then p.power_level + 1 else p.power_level)
    ∧ ((powerUp p).score =
        if p.power_level < 2 then p.score + 1000 else p.score)
    ∧ (p.power_level ≤ (mushroomApplyTo p).power_level)
    ∧ ((mushroomApplyTo p).power_level =
        if p.power_level < 1 then 1 else p.power_level)
    ∧ ((mushroomApplyTo p).score =
        if p.power_level < 1 then p.score + 1000 else p.score) := by
  unfold powerUp mushroomApplyTo
  by_cases h2 : p.power_level < 2 <;> by_cases h1 : p.power_level < 1 <;>
    simp [h1, h2] <;> omega

/-- C4 (confirmed): damage while invulnerable is a complete no-op;
damage with positive `power_level` costs one power level (lives intact)
and grants a 2-second invulnerability window; otherwise one life is
lost — at `lives ≤ 0` after the loss the player is deactivated, else a
3-second invulnerability window is granted. -/
theorem takeDamage_cases (p : PState) :
    (p.invulnerable = true → takeDamage p = p)
    ∧ (p.invulnerable = false → 0 < p.power_level →
        (takeDamage p).power_level = p.power_level - 1
        ∧ (takeDamage p).lives = p.lives
        ∧ (takeDamage p).invulnerable = true
        ∧ (takeDamage p).invulnerable_timer = 2
        ∧ (takeDamage p).active = p.active)
    ∧ (p.invulnerable = false → p.power_level ≤ 0 →
        (takeDamage p).lives = p.lives - 1
        ∧ (takeDamage p).power_level = p.power_level
        ∧ (p.lives - 1 ≤ 0 → (takeDamage p).active = false)
        ∧ (0 < p.lives - 1 →
            (takeDamage p).active = p.active
            ∧ (takeDamage p).invulnerable = true
            ∧ (takeDamage p).invulnerable_timer = 3)) := by
  refine ⟨fun hi => by simp [takeDamage, hi],
    fun hi hp => by simp [takeDamage, hi, hp], fun hi hp => ?_⟩
  have hp' : ¬ (0 < p.power_level) := not_lt.mpr hp
  by_cases hl : p.lives - 1 ≤ 0
  · exact ⟨by simp [takeDamage, hi, hp', hl], by simp [takeDamage, hi, hp', hl],
      fun _ => by simp [takeDamage, hi, hp', hl],
      fun hcontra => absurd hcontra (by omega)⟩
  · exact ⟨by simp [takeDamage, hi, hp', hl], by simp [takeDamage, hi, hp', hl],
      fun hcontra => absurd hcontra (by omega),
      fun _ => ⟨by simp [takeDamage, hi, hp', hl],
        by simp [takeDamage, hi, hp', hl],
        by simp [takeDamage, hi, hp', hl]⟩⟩

/-- C4 witness: a fresh vulnerable player with no power-up loses exactly
one life and gains the 3-second invulnerability window. -/
theorem takeDamage_cases_witness :
    (takeDamage (playerInit 0 0)).lives = (playerInit 0 0).lives - 1
    ∧ (takeDamage (playerInit 0 0)).invulnerable = true := by
  have h := (takeDamage_cases (playerInit 0 0)).2.2 (by rfl) (by with_unfolding_all decide)
  exact ⟨h.1, (h.2.2.2 (by with_unfolding_all decide)).2.1⟩

lemma collectCoin_of_not_wrap {p : PState} (h : ¬ (p.coins + 1 ≥ 100)) :
    collectCoin p = { p with coins := p.coins + 1, score := p.score + 100 } := by
  unfold collectCoin; simp [h]

lemma collectCoin_of_wrap {p : PState} (h : p.coins + 1 ≥ 100) :
    collectCoin p =
      { p with coins := 0, score := p.score + 100, lives := p.lives + 1 } := by
  unfold collectCoin; simp [h]

lemma collectCoin_iterate (p : PState) (hp : p.coins = 0) :
    ∀ n : ℕ, n ≤ 99 →
      (collectCoin^[n] p).coins = (n : ℤ)
      ∧ (collectCoin^[n] p).score = p.score + 100 * (n : ℤ)
      ∧ (collectCoin^[n] p).lives = p.lives := by
  intro n
  induction n with
  | zero => intro _; simpa using hp
  | succ k ih =>
    intro hk
    have hk' : k ≤ 99 := Nat.le_of_succ_le hk
    obtain ⟨hc, hs, hl⟩ := ih hk'
    have hwrap : ¬ ((collectCoin^[k] p).coins + 1 ≥ 100) := by
      rw [hc]; omega
    rw [Function.iterate_succ_apply', collectCoin_of_not_wrap hwrap]
    refine ⟨?_, ?_, ?_⟩
    · show (collectCoin^[k] p).coins + 1 = ((k : ℤ) + 1)
      rw [hc]
    · show (collectCoin^[k] p).score + 100 = p.score + 100 * ((k : ℤ) + 1)
      rw [hs]; ring
    · show (collectCoin^[k] p).lives = p.lives
      exact hl

/-- C5 (confirmed): each coin collection adds the fixed 100 points and
advances the coin counter by one, wrapping to 0 at the 100-coin
threshold; starting from `coins = 0`, after 100 single collections the
counter is back at 0, exactly one extra life has been granted, and
100 × 100 points were scored. -/
theorem collectCoin_count_and_wrap (p : PState) :
    ((collectCoin p).score = p.score + 100)
    ∧ ((collectCoin p).coins = if p.coins + 1 ≥ 100 then 0 else p.coins + 1)
    ∧ (p.coins = 0 →
        (collectCoin^[100] p).coins = 0
        ∧ (collectCoin^[100] p).lives = p.lives + 1
        ∧ (collectCoin^[100] p).score = p.score + 10000) := by
  refine ⟨?_, ?_, ?_⟩
  · unfold collectCoin; by_cases h : p.coins + 1 ≥ 100 <;> simp [h]
  · unfold collectCoin; by_cases h : p.coins + 1 ≥ 100 <;> simp [h]
  · intro hp
    obtain ⟨hc, hs, hl⟩ := collectCoin_iterate p hp 99 (le_refl 99)
    have h100 : collectCoin^[100] p = collectCoin (collectCoin^[99] p) :=
      Function.iterate_succ_apply' collectCoin 99 p
    have hwrap : ((collectCoin^[99] p).coins + 1 ≥ 100) := by rw [hc]; omega
    rw [h100, collectCoin_of_wrap hwrap]
    refine ⟨rfl, ?_, ?_⟩
    · show (collectCoin^[99] p).lives + 1 = p.lives + 1
      rw [hl]
    · show (collectCoin^[99] p).score + 100 = p.score + 10000
      rw [hs]; omega

/-- C5 witness: a fresh player (0 coins, 3 lives, 0 score) ends the 100th
collection with 0 coins, 4 lives and 10000 points. -/
theorem collectCoin_count_and_wrap_witness :
    (collectCoin^[100] (playerInit 0 0)).coins = 0
    ∧ (collectCoin^[100] (playerInit 0 0)).lives = (playerInit 0 0).lives + 1
    ∧ (collectCoin^[100] (playerInit 0 0)).score = (playerInit 0 0).score + 10000 :=
  (collectCoin_count_and_wrap (playerInit 0 0)).2.2 (by rfl)

/-! ### Enemies and the stomp contract (enemies.py, game_engine.py) -/

/-- Enemy state touched by the stomp/death interaction
(`Enemy` base class fields, enemies.py lines 17-52). -/
structure EnemyState where
  x : ℚ
  y : ℚ
  velocity_y : ℚ
  health : ℤ
  can_be_stomped : Bool
  stomp_points : ℤ
  dead : Bool
  death_timer : ℚ
  solid : Bool
  deriving DecidableEq, Repr

/-- `Enemy.die` (enemies.py lines 47-52): mark dead, start the 1-second
death timer, apply the cosmetic upward impulse, stop being solid. -/
def enemyDie (e : EnemyState) : EnemyState :=
  { e with dead := true, death_timer := 1, velocity_y := -200, solid := false }

/-- `Enemy.stomp` (enemies.py lines 54-59): returns the points awarded
together with the updated enemy. -/
def enemyStomp (e : EnemyState) : ℤ × EnemyState :=
  if e.can_be_stomped then (e.stomp_points, enemyDie e) else (0, e)

/-- The stomp classification of
`PlayingState.handle_player_enemy_collision` (game_engine.py lines
294-295): the player moves downward and their bottom edge is within 10
pixels of the enemy's top edge. -/
def isStomp (p : PState) (e : EnemyState) : Prop :=
  0 < p.velocity_y ∧ p.pBottom ≤ e.y + 10

instance (p : PState) (e : EnemyState) : Decidable (isStomp p e) := by
  unfold isStomp; infer_instance

/-- `PlayingState.handle_player_enemy_collision` (game_engine.py lines
288-311), restricted to its state effects (score popups and particle
effects are cosmetic and omitted). -/
def handlePlayerEnemyCollision (p : PState) (e : EnemyState) :
    PState × EnemyState :=
  if isStomp p e then
    ((if 0 < (enemyStomp e).1 then
        { p with score := p.score + (enemyStomp e).1, velocity_y := -300 }
      else { p with velocity_y := -300 }), (enemyStomp e).2)
  else (takeDamage p, e)

/-- C6 (confirmed): a player–enemy collision is treated as a stomp
exactly when the player's vertical velocity is positive and the player's
bottom is at most 10 pixels below the enemy's top; a stomp on a
stomp-eligible enemy kills the enemy (death sub-state, non-solid) and
awards its point value to the player without invoking the damage
operation, while any other collision leaves the enemy unchanged and
applies `Player.take_damage` to the player. -/
theorem handleCollision_stomp_contract (p : PState) (e : EnemyState) :
    (isStomp p e → e.can_be_stomped = true →
      (handlePlayerEnemyCollision p e).2 = enemyDie e
      ∧ (handlePlayerEnemyCollision p e).2.dead = true
      ∧ (handlePlayerEnemyCollision p e).2.solid = false
      ∧ (0 < e.stomp_points →
          (handlePlayerEnemyCollision p e).1.score = p.score + e.stomp_points)
      ∧ (handlePlayerEnemyCollision p e).1.velocity_y = -300
      ∧ (handlePlayerEnemyCollision p e).1.lives = p.lives
      ∧ (handlePlayerEnemyCollision p e).1.power_level = p.power_level)
    ∧ (¬ isStomp p e →
        handlePlayerEnemyCollision p e = (takeDamage p, e)) := by
  constructor
  · intro hs hc
    have hstomp : enemyStomp e = (e.stomp_points, enemyDie e) := by
      unfold enemyStomp; simp [hc]
    by_cases hpts : 0 < e.stomp_points
    · simp [handlePlayerEnemyCollision, hs, hstomp, hpts, enemyDie]
    · simp [handlePlayerEnemyCollision, hs, hstomp, hpts, enemyDie]
  · intro hs
    simp [handlePlayerEnemyCollision, hs]

/-- C6 witness: a downward-moving player landing on a stompable enemy's
head kills it and collects its 100 points; the same geometry without
downward motion damages the player instead. -/
theorem handleCollision_stomp_contract_witness :
    ((handlePlayerEnemyCollision
        { playerInit 0 0 with velocity_y := 50, y := 100 }
        ⟨0, 130, 0, 1, true, 100, false, 0, true⟩).2.dead = true)
    ∧ ((handlePlayerEnemyCollision
        { playerInit 0 0 with velocity_y := 50, y := 100 }
        ⟨0, 130, 0, 1, true, 100, false, 0, true⟩).1.score =
          ({ playerInit 0 0 with velocity_y := 50, y := 100 } : PState).score + 100)
    ∧ (handlePlayerEnemyCollision (playerInit 0 0)
        ⟨0, 130, 0, 1, true, 100, false, 0, true⟩ =
          (takeDamage (playerInit 0 0), ⟨0, 130, 0, 1, true, 100, false, 0, true⟩)) := by
  have h := handleCollision_stomp_contract
    { playerInit 0 0 with velocity_y := 50, y := 100 }
    ⟨0, 130, 0, 1, true, 100, false, 0, true⟩
  have hstomp : isStomp { playerInit 0 0 with velocity_y := 50, y := 100 }
      ⟨0, 130, 0, 1, true, 100, false, 0, true⟩ := by
    constructor <;> with_unfolding_all decide
  have h1 := h.1 hstomp rfl
  have h2 := handleCollision_stomp_contract (playerInit 0 0)
    ⟨0, 130, 0, 1, true, 100, false, 0, true⟩
  have hns : ¬ isStomp (playerInit 0 0) ⟨0, 130, 0, 1, true, 100, false, 0, true⟩ := by
    intro hx
    exact absurd hx.1 (by with_unfolding_all decide)
  exact ⟨h1.2.1, h1.2.2.2.1 (by with_unfolding_all decide), h2.2 hns⟩

/-! ### Piranha (enemies.py lines 368-407) -/

/-- Piranha state: the pop-up phase machine plus position and the fields
inherited from `Enemy` that the claims mention. -/
structure PiranhaState where
  x : ℚ
  y : ℚ
  original_y : ℚ
  pipe_height : ℚ
  velocity_x : ℚ
  pop_timer : ℚ
  pop_duration : ℚ
  hide_duration : ℚ
  popped_up : Bool
  visible : Bool
  solid : Bool
  can_be_stomped : Bool
  deriving DecidableEq, Repr

/-- `Piranha.__init__` (enemies.py lines 371-384): speed 0, cannot be
stomped, 2-second pop and hide durations, starts hidden (shifted down by
the pipe height, invisible) — note `solid` is inherited as `true` from
`Entity.__init__` and is not cleared here. -/
def piranhaInit (x y : ℚ) : PiranhaState :=
  ⟨x, y + 40, y, 40, 0, 0, 2, 2, false, false, true, false⟩

/-- `Piranha.update_ai` (enemies.py lines 386-407). -/
def piranhaUpdateAi (dt : ℚ) (s : PiranhaState) : PiranhaState :=
  if s.popped_up then
    if s.pop_timer + dt ≥ s.pop_duration then
      { s with popped_up := false, pop_timer := 0, visible := false,
               solid := false, y := s.original_y + s.pipe_height }
    else { s with pop_timer := s.pop_timer + dt }
  else
    if s.pop_timer + dt ≥ s.hide_duration then
      { s with popped_up := true, pop_timer := 0, visible := true,
               solid := true, y := s.original_y }
    else { s with pop_timer := s.pop_timer + dt }

/-- One simulated frame of the Piranha: `update_ai` followed by the
horizontal part of `Enemy.update_physics` (`x += velocity_x * dt`; the
Piranha's AI never writes `velocity_x`, and the vertical physics pass
touches neither `x` nor the phase flags). -/
def piranhaStep (dt : ℚ) (s : PiranhaState) : PiranhaState :=
  { piranhaUpdateAi dt s with
    x := (piranhaUpdateAi dt s).x + (piranhaUpdateAi dt s).velocity_x * dt }

/-- Iterated frames at a fixed timestep. -/
def piranhaRun (dt : ℚ) : ℕ → PiranhaState → PiranhaState
  | 0, s => s
  | n + 1, s => piranhaRun dt n (piranhaStep dt s)

/-- C10 (confirmed): the Piranha is constructed stomp-ineligible, and a
stomp-classified collision with any stomp-ineligible enemy awards 0
points, leaves the enemy (health, death state, solidity) completely
unchanged, does not invoke the player's damage operation (every player
field except the vertical velocity is unchanged), and still sets the
player's vertical velocity to the fixed bounce value −300. -/
theorem stomp_unstompable_bounces_only :
    (∀ x y : ℚ, (piranhaInit x y).can_be_stomped = false)
    ∧ (∀ (p : PState) (e : EnemyState), isStomp p e → e.can_be_stomped = false →
        enemyStomp e = (0, e)
        ∧ handlePlayerEnemyCollision p e = ({ p with velocity_y := -300 }, e)) := by
  refine ⟨fun x y => rfl, fun p e hs hc => ?_⟩
  have hstomp : enemyStomp e = (0, e) := by unfold enemyStomp; simp [hc]
  refine ⟨hstomp, ?_⟩
  simp [handlePlayerEnemyCollision, hs, hstomp]

/-- C10 witness: a downward-moving player meeting the stomp geometry on
a stomp-ineligible enemy only gets the bounce; enemy and all other
player state are untouched. -/
theorem stomp_unstompable_bounces_only_witness :
    handlePlayerEnemyCollision
        { playerInit 0 0 with velocity_y := 50, y := 100 }
        ⟨0, 130, 0, 1, false, 100, false, 0, true⟩ =
      ({ ({ playerInit 0 0 with velocity_y := 50, y := 100 } : PState) with
          velocity_y := -300 },
        ⟨0, 130, 0, 1, false, 100, false, 0, true⟩) := by
  have hstomp : isStomp { playerInit 0 0 with velocity_y := 50, y := 100 }
      ⟨0, 130, 0, 1, false, 100, false, 0, true⟩ := by
    constructor <;> with_unfolding_all decide
  exact (stomp_unstompable_bounces_only.2
    { playerInit 0 0 with velocity_y := 50, y := 100 }
    ⟨0, 130, 0, 1, false, 100, false, 0, true⟩ hstomp rfl).2

lemma piranhaUpdateAi_keeps_x_and_vx (dt : ℚ) (s : PiranhaState) :
    (piranhaUpdateAi dt s).x = s.x
    ∧ (piranhaUpdateAi dt s).velocity_x = s.velocity_x := by
  unfold piranhaUpdateAi
  split_ifs <;> exact ⟨rfl, rfl⟩

lemma piranhaRun_keeps_x (dt : ℚ) (n : ℕ) (s : PiranhaState)
    (hv : s.velocity_x = 0) :
    (piranhaRun dt n s).x = s.x ∧ (piranhaRun dt n s).velocity_x = 0 := by
  induction n generalizing s with
  | zero => exact ⟨rfl, hv⟩
  | succ k ih =>
    show (piranhaRun dt k (piranhaStep dt s)).x = s.x ∧ _
    obtain ⟨hx, hvx⟩ := piranhaUpdateAi_keeps_x_and_vx dt s
    have hstep_x : (piranhaStep dt s).x = s.x := by
      show (piranhaUpdateAi dt s).x + (piranhaUpdateAi dt s).velocity_x * dt = s.x
      rw [hx, hvx, hv]; ring
    have hstep_v : (piranhaStep dt s).velocity_x = 0 := by
      show (piranhaUpdateAi dt s).velocity_x = 0
      rw [hvx, hv]
    obtain ⟨h1, h2⟩ := ih (piranhaStep dt s) hstep_v
    exact ⟨h1.trans hstep_x, h2⟩

/-- C8 counterexample: the claim says the hidden phase is non-solid and
invisible, but a freshly constructed Piranha is hidden (not popped up,
invisible) yet still solid, and remains solid through the whole initial
hidden phase (shown here 0.5 s in at a 0.1 s timestep). -/
theorem piranha_initial_hidden_phase_is_solid :
    (piranhaInit 0 0).popped_up = false
    ∧ (piranhaInit 0 0).visible = false
    ∧ (piranhaInit 0 0).solid = true
    ∧ (piranhaRun (1/10) 5 (piranhaInit 0 0)).popped_up = false
    ∧ (piranhaRun (1/10) 5 (piranhaInit 0 0)).visible = false
    ∧ (piranhaRun (1/10) 5 (piranhaInit 0 0)).solid = true := by
  with_unfolding_all decide

/-- C8 (corrected, amended claim): the Piranha alternates between a
hidden invisible phase and a visible solid phase on its two independent
fixed durations — hidden phases entered after a pop-up are non-solid,
but the initial hidden phase keeps the constructor's `solid = true` —
and it never moves horizontally. Starting hidden with
`pop_duration = hide_duration = 2.0` at a 0.1 s timestep it is still
hidden at 1.9 s, becomes visible and solid exactly at simulated time
2.0 s (rising to its spawn height), is still visible at 3.9 s, hides
again (invisible, non-solid, lowered into the pipe) exactly at 4.0 s,
and pops up again at 6.0 s. -/
theorem piranha_phase_timing :
    ((piranhaRun (1/10) 19 (piranhaInit 0 0)).visible = false)
    ∧ ((piranhaRun (1/10) 20 (piranhaInit 0 0)).visible = true
        ∧ (piranhaRun (1/10) 20 (piranhaInit 0 0)).solid = true
        ∧ (piranhaRun (1/10) 20 (piranhaInit 0 0)).popped_up = true
        ∧ (piranhaRun (1/10) 20 (piranhaInit 0 0)).y = 0)
    ∧ ((piranhaRun (1/10) 39 (piranhaInit 0 0)).visible = true)
    ∧ ((piranhaRun (1/10) 40 (piranhaInit 0 0)).visible = false
        ∧ (piranhaRun (1/10) 40 (piranhaInit 0 0)).solid = false
        ∧ (piranhaRun (1/10) 40 (piranhaInit 0 0)).popped_up = false
        ∧ (piranhaRun (1/10) 40 (piranhaInit 0 0)).y = 40)
    ∧ ((piranhaRun (1/10) 60 (piranhaInit 0 0)).visible = true
        ∧ (piranhaRun (1/10) 60 (piranhaInit 0 0)).solid = true)
    ∧ (∀ (x y dt : ℚ) (n : ℕ), (piranhaRun dt n (piranhaInit x y)).x = x) := by
  refine ⟨?_, ⟨?_, ?_, ?_, ?_⟩, ?_, ⟨?_, ?_, ?_, ?_⟩, ⟨?_, ?_⟩, ?_⟩
  · with_unfolding_all decide
  · with_unfolding_all decide
  · with_unfolding_all decide
  · with_unfolding_all decide
  · with_unfolding_all decide
  · with_unfolding_all decide
  · with_unfolding_all decide
  · with_unfolding_all decide
  · with_unfolding_all decide
  · with_unfolding_all decide
  · with_unfolding_all decide
  · with_unfolding_all decide
  · intro x y dt n
    exact (piranhaRun_keeps_x dt n (piranhaInit x y) rfl).1

/-! ### Goomba patrol (enemies.py lines 211-230) -/

/-- Goomba patrol state: position, spawn origin, walking direction and
the fixed patrol parameters (`speed = 30`, `patrol_distance = 80` in the
constructor, kept symbolic here). -/
structure GoombaState where
  x : ℚ
  start_x : ℚ
  direction : ℤ
  patrol_distance : ℚ
  speed : ℚ
  deriving DecidableEq, Repr

/-- `Goomba.update_ai` (enemies.py lines 219-230): reverse on a wall or
cliff probe, reverse again when displaced beyond the patrol radius, then
set the walking velocity. The wall/cliff probe result is passed in as a
boolean (the claim considers level ground with no wall or cliff ahead). -/
def goombaAi (wallOrCliff : Bool) (s : GoombaState) : GoombaState × ℚ :=
  let d1 : ℤ := if wallOrCliff then -s.direction else s.direction
  let d2 : ℤ := if |s.x - s.start_x| > s.patrol_distance then -d1 else d1
  ({ s with direction := d2 }, (d2 : ℚ) * s.speed)

/-- One simulated frame on flat ground: `update_ai` then the horizontal
integration `x += velocity_x * dt` of `Enemy.update_physics` (no
platform blocks the walk, so no collision response runs). -/
def goombaStep (dt : ℚ) (wallOrCliff : Bool) (s : GoombaState) : GoombaState :=
  { (goombaAi wallOrCliff s).1 with
    x := (goombaAi wallOrCliff s).1.x + (goombaAi wallOrCliff s).2 * dt }

/-- C7 (confirmed): walking outward at a fixed timestep with no wall or
cliff ahead, the patrol direction is inverted exactly once per threshold
crossing — on the first frame that starts beyond the radius the
direction flips, that same frame moves the enemy back inside the radius,
and the following frame does not flip again. -/
theorem goomba_patrol_flips_once (s : GoombaState) (dt : ℚ)
    (h0 : |s.x - s.start_x| ≤ s.patrol_distance)
    (h1 : |(goombaStep dt false s).x - s.start_x| > s.patrol_distance) :
    (goombaStep dt false s).direction = s.direction
    ∧ (goombaStep dt false (goombaStep dt false s)).direction = -s.direction
    ∧ (goombaStep dt false (goombaStep dt false s)).x = s.x
    ∧ |(goombaStep dt false (goombaStep dt false s)).x -
        (goombaStep dt false (goombaStep dt false s)).start_x| ≤ s.patrol_distance
    ∧ (goombaStep dt false
        (goombaStep dt false (goombaStep dt false s))).direction = -s.direction := by
  have hin : ¬ (|s.x - s.start_x| > s.patrol_distance) := not_lt.mpr h0
  have hstep1 : goombaStep dt false s =
      { s with x := s.x + (s.direction : ℚ) * s.speed * dt } := by
    unfold goombaStep goombaAi
    simp [hin]
  have hd1 : (goombaStep dt false s).direction = s.direction := by rw [hstep1]
  have hbeyond : |(goombaStep dt false s).x -
      (goombaStep dt false s).start_x| > (goombaStep dt false s).patrol_distance := by
    rw [hstep1] at h1 ⊢; exact h1
  have hstep2 : goombaStep dt false (goombaStep dt false s) =
      { (goombaStep dt false s) with
        direction := -(goombaStep dt false s).direction,
        x := (goombaStep dt false s).x +
          (-(goombaStep dt false s).direction : ℤ) *
            (goombaStep dt false s).speed * dt } := by
    generalize hq : goombaStep dt false s = q at hbeyond ⊢
    unfold goombaStep goombaAi
    simp [hbeyond]
  have hx2 : (goombaStep dt false (goombaStep dt false s)).x = s.x := by
    rw [hstep2, hd1, hstep1]
    show s.x + (s.direction : ℚ) * s.speed * dt +
        ((-s.direction : ℤ) : ℚ) * s.speed * dt = s.x
    push_cast
    ring
  have hd2 : (goombaStep dt false (goombaStep dt false s)).direction =
      -s.direction := by rw [hstep2, hd1]
  have hs2 : (goombaStep dt false (goombaStep dt false s)).start_x = s.start_x := by
    rw [hstep2, hstep1]
  have hin2 : |(goombaStep dt false (goombaStep dt false s)).x -
      (goombaStep dt false (goombaStep dt false s)).start_x| ≤
        s.patrol_distance := by
    rw [hx2, hs2]; exact h0
  have hpat2 : (goombaStep dt false (goombaStep dt false s)).patrol_distance =
      s.patrol_distance := by rw [hstep2, hstep1]
  refine ⟨hd1, hd2, hx2, hin2, ?_⟩
  generalize hq : goombaStep dt false (goombaStep dt false s) = q at hin2 hd2 hpat2
  have hin2' : ¬ (|q.x - q.start_x| > q.patrol_distance) := by
    rw [hpat2]; exact not_lt.mpr hin2
  show (goombaStep dt false q).direction = -s.direction
  unfold goombaStep goombaAi
  simp [hin2', hd2]

/-- C7 witness: a Goomba at x = 375 (spawn 300, radius 80, speed 30)
with a half-second timestep steps to 390, flips there, returns to 375,
and keeps the flipped direction on the next frame. -/
theorem goomba_patrol_flips_once_witness :
    (goombaStep (1/2) false (goombaStep (1/2) false ⟨375, 300, 1, 80, 30⟩)).direction = -1
    ∧ (goombaStep (1/2) false (goombaStep (1/2) false ⟨375, 300, 1, 80, 30⟩)).x = 375
    ∧ (goombaStep (1/2) false (goombaStep (1/2) false
        (goombaStep (1/2) false ⟨375, 300, 1, 80, 30⟩))).direction = -1 := by
  have h := goomba_patrol_flips_once ⟨375, 300, 1, 80, 30⟩ (1/2)
    (by with_unfolding_all decide) (by with_unfolding_all decide)
  exact ⟨h.2.1, h.2.2.1, h.2.2.2.2⟩

/-! ### Coin collection on touch (collectibles.py lines 13-39) -/

/-- Coin state (`Coin.__init__`): a 16×16 collectible whose `solid` flag
is set to `False` at construction. -/
structure CoinState where
  ent : Ent
  bob_time : ℚ
  base_y : ℚ
  deriving DecidableEq, Repr

/-- `Coin.__init__` (collectibles.py lines 16-21). -/
def coinInit (x y : ℚ) : CoinState := ⟨⟨x, y, 16, 16, true, false⟩, 0, y⟩

/-- The player viewed as a collision participant. -/
def PState.toEnt (p : PState) : Ent :=
  ⟨p.x, p.y, p.width, p.height, p.active, p.solid⟩

/-- `Coin.update` (collectibles.py lines 23-39) against a single player
entity: advance the bob time, set `y` from the sine offset (the sine
function is passed in abstractly as `sinq`), then deactivate the coin
and collect it iff the coin `collides_with` the active player. -/
def coinUpdate (sinq : ℚ → ℚ) (dt : ℚ) (c : CoinState) (p : PState) :
    CoinState × PState :=
  if ¬ c.ent.active then (c, p)
  else
    let c1 : CoinState :=
      { c with bob_time := c.bob_time + dt,
               ent := { c.ent with y := c.base_y + 3 * sinq ((c.bob_time + dt) * 6) } }
    if p.active && collidesWith c1.ent p.toEnt then
      ({ c1 with ent := { c1.ent with active := false } }, collectCoin p)
    else (c1, p)

/-- C2 (code bug): a coin's bounding box can geometrically overlap an
active player's box during the coin's update, yet — because
`Coin.__init__` sets `solid = False` and `Entity.collides_with` requires
both participants to be solid — the overlap test is always false, so the
coin is not deactivated and `collect_coin` is never invoked. Evaluated
here at the failing input: a fresh coin at (0,0) and a fresh 32×32
player at (0,0) whose rectangles strictly overlap. -/
theorem coin_touch_collection_never_fires :
    (rectsCollide (coinInit 0 0).ent.rect (playerInit 0 0).toEnt.rect = true)
    ∧ ((coinInit 0 0).ent.active = true ∧ (playerInit 0 0).active = true)
    ∧ (∀ sinq : ℚ → ℚ, ∀ dt : ℚ,
        (coinUpdate sinq dt (coinInit 0 0) (playerInit 0 0)).1.ent.active = true
        ∧ (coinUpdate sinq dt (coinInit 0 0) (playerInit 0 0)).2 = playerInit 0 0) := by
  refine ⟨by with_unfolding_all decide, ⟨rfl, rfl⟩, fun sinq dt => ?_⟩
  have hsolid : ∀ yq : ℚ,
      collidesWith ⟨0, yq, 16, 16, true, false⟩ (playerInit 0 0).toEnt = false := by
    intro yq
    unfold collidesWith
    simp
  unfold coinUpdate
  simp [coinInit, hsolid]

/-! ### Entity manager (entity.py lines 145-203) -/

/-- A managed entity, reduced to the identity (Python object identity,
modelled with a numeric id) and the `active` flag the drain inspects. -/
structure MEnt where
  id : ℕ
  active : Bool
  deriving DecidableEq, Repr

/-- The three lists owned by `EntityManager`. -/
structure EMState where
  entities : List MEnt
  entities_to_add : List MEnt
  entities_to_remove : List MEnt
  deriving DecidableEq, Repr

/-- `EntityManager.add_entity`: append to the pending-additions buffer. -/
def emAddEntity (m : EMState) (e : MEnt) : EMState :=
  { m with entities_to_add := m.entities_to_add ++ [e] }

/-- Python `list.remove` under identity equality: drop the first
occurrence of the given id, no-op when absent (`remove_entity` only
queues entities that were present, and `update` re-checks membership). -/
def removeFirst : List MEnt → ℕ → List MEnt
  | [], _ => []
  | x :: xs, i => if x.id = i then xs else x :: removeFirst xs i

/-- The drain at the top of `EntityManager.update` (entity.py lines
171-184): append pending additions, drop each queued removal, then purge
every inactive entity. The per-entity update loop (lines 186-188) then
iterates exactly over this list. -/
def emDrain (m : EMState) : List MEnt :=
  ((m.entities_to_remove.foldl (fun l e => removeFirst l e.id)
      (m.entities ++ m.entities_to_add)).filter (fun e => e.active))

/-- `EntityManager.update`, structurally: the drained list becomes the
live list and both buffers are cleared, before any per-entity update of
the cycle runs. -/
def emUpdateState (m : EMState) : EMState := ⟨emDrain m, [], []⟩

lemma removeFirst_sublist (l : List MEnt) (i : ℕ) :
    List.Sublist (removeFirst l i) l := by
  induction l with
  | nil => exact List.Sublist.refl _
  | cons x xs ih =>
    unfold removeFirst
    by_cases h : x.id = i
    · simp only [h, if_true]
      exact (List.sublist_cons_self _ _)
    · simp only [h, if_false]
      exact List.Sublist.cons₂ x ih

lemma foldl_removeFirst_sublist (rs : List MEnt) (l : List MEnt) :
    List.Sublist (rs.foldl (fun l e => removeFirst l e.id) l) l := by
  induction rs generalizing l with
  | nil => exact List.Sublist.refl _
  | cons r rs ih =>
    exact (ih (removeFirst l r.id)).trans (removeFirst_sublist l r.id)

lemma not_mem_removeFirst (l : List MEnt) (i : ℕ)
    (hnd : (l.map MEnt.id).Nodup) :
    i ∉ (removeFirst l i).map MEnt.id := by
  induction l with
  | nil => simp [removeFirst]
  | cons x xs ih =>
    have hx : x.id ∉ xs.map MEnt.id := (List.nodup_cons.mp (by simpa using hnd)).1
    have hnd' : (xs.map MEnt.id).Nodup := (List.nodup_cons.mp (by simpa using hnd)).2
    unfold removeFirst
    by_cases h : x.id = i
    · simp only [h, if_true]
      rw [← h]
      exact hx
    · simp only [h, if_false, List.map_cons]
      intro hmem
      rcases List.mem_cons.mp hmem with he | he
      · exact h he.symm
      · exact ih hnd' he

lemma foldl_removeFirst_not_mem (rs : List MEnt) (l : List MEnt)
    (hnd : (l.map MEnt.id).Nodup) :
    ∀ r ∈ rs, r.id ∉ ((rs.foldl (fun l e => removeFirst l e.id) l).map MEnt.id) := by
  induction rs generalizing l with
  | nil => intro r hr; exact absurd hr (List.not_mem_nil r)
  | cons a as ih =>
    intro r hr
    simp only [List.foldl_cons]
    have hsub : List.Sublist (removeFirst l a.id) l := removeFirst_sublist l a.id
    have hnd' : ((removeFirst l a.id).map MEnt.id).Nodup :=
      List.Nodup.sublist (hsub.map MEnt.id) hnd
    rcases List.mem_cons.mp hr with he | he
    · subst he
      have h1 : r.id ∉ (removeFirst l r.id).map MEnt.id :=
        not_mem_removeFirst l r.id hnd
      have h2 : List.Sublist (as.foldl (fun l e => removeFirst l e.id)
          (removeFirst l r.id)) (removeFirst l r.id) :=
        foldl_removeFirst_sublist as (removeFirst l r.id)
      intro hmem
      exact h1 ((h2.map MEnt.id).subset hmem)
    · exact ih (removeFirst l a.id) hnd' r he

/-- C9 (confirmed): `add_entity` only appends to the pending-additions
buffer and leaves the live list untouched (so a new entity receives no
update before the next drain); on the drain at the top of
`EntityManager.update`, every entity whose per-entity update will be
invoked is active, and — for distinct entity objects, i.e. no duplicate
identities — every queued pending-removal is gone from the live list
before any per-entity update of the cycle runs. -/
theorem entityManager_deferred_lifecycle (m : EMState) (e : MEnt) :
    ((emAddEntity m e).entities = m.entities)
    ∧ ((emAddEntity m e).entities_to_add = m.entities_to_add ++ [e])
    ∧ ((emUpdateState m).entities = emDrain m)
    ∧ (∀ x ∈ emDrain m, x.active = true)
    ∧ (((m.entities ++ m.entities_to_add).map MEnt.id).Nodup →
        ∀ r ∈ m.entities_to_remove, r.id ∉ (emDrain m).map MEnt.id) := by
  refine ⟨rfl, rfl, rfl, ?_, ?_⟩
  · intro x hx
    have := (List.mem_filter.mp hx).2
    simpa using this
  · intro hnd r hr hmem
    have hmem' : r.id ∈ ((m.entities_to_remove.foldl
        (fun l e => removeFirst l e.id)
        (m.entities ++ m.entities_to_add)).map MEnt.id) := by
      obtain ⟨x, hx, hxid⟩ := List.mem_map.mp hmem
      exact List.mem_map.mpr ⟨x, List.mem_of_mem_filter hx, hxid⟩
    exact foldl_removeFirst_not_mem m.entities_to_remove
      (m.entities ++ m.entities_to_add) hnd r hr hmem'

/-- C9 witness: with a live list of two distinct active entities and one
of them queued for removal, the drain keeps only the other (which is
active) and the removed id is gone before updates run. -/
theorem entityManager_deferred_lifecycle_witness :
    ((⟨1, true⟩ : MEnt).active = true)
    ∧ ((2 : ℕ) ∉ (emDrain ⟨[⟨1, true⟩, ⟨2, true⟩], [], [⟨2, true⟩]⟩).map MEnt.id) := by
  have h := entityManager_deferred_lifecycle
    ⟨[⟨1, true⟩, ⟨2, true⟩], [], [⟨2, true⟩]⟩ ⟨3, true⟩
  exact ⟨h.2.2.2.1 ⟨1, true⟩ (by with_unfolding_all decide),
    h.2.2.2.2 (by with_unfolding_all decide) ⟨2, true⟩ (by with_unfolding_all decide)⟩

end Platformer
